import Mathlib

/-!
Verification development for the Karaty content-acquisition and
template-resolution engine.  The definitions below are a shallow
embedding of the Rust sources:

  * src/utils/data.rs     (source provider resolver, content fetcher,
                           content lister, page loader)
  * src/pages/template.rs (template resolver, renderer variants,
                           style class builder)

Network transport (gloo HTTP) and third-party deserializers (serde)
are external collaborators and are modelled as explicit oracle
parameters.  Rust panics (unwrap / expect / explicit panic) are
modelled as the value none of an Option-typed result.
-/

namespace Karaty

/-- Model of a TOML value, restricted to the shapes the engine reads:
strings, booleans, integers and tables (assoc lists, first match on
lookup, mirroring map get). -/
inductive Toml where
  | str (s : String)
  | bool (b : Bool)
  | int (n : Int)
  | table (fields : List (String × Toml))

/-- Table of TOML entries, as read by the template resolver. -/
abbrev TomlTable := List (String × Toml)

/-- Mirror of toml Value as_table: some table on a table value, none
otherwise (a none models the panic of an unwrap at the call sites). -/
def Toml.as_table : Toml → Option TomlTable
  | Toml.table t => some t
  | _ => none

/-- Mirror of toml Value as_str. -/
def Toml.as_str : Toml → Option String
  | Toml.str s => some s
  | _ => none

/-- Case folding of the source, modelled character-wise on the char
list (the Rust to_lowercase; every comparison target is ASCII). -/
def strToLower (s : String) : String := String.mk (s.data.map Char.toLower)

/-- Repository coordinates, from the config schema (the config module
itself is outside the provided sources; the shape is the one data.rs
reads: service, name, branch). -/
structure Repository where
  service : String
  name : String
  branch : String

/-- Data-source section of the config: a mode string and a
mode-dependent payload. -/
structure DataSource where
  mode : String
  data : Toml

/-- Process configuration, restricted to the fields data.rs reads. -/
structure Config where
  data_source : DataSource
  repository : Repository

/-- Embedding of get_raw_data_url (src/utils/data.rs lines 13-22):
maps a service identifier, case-insensitively, to the raw-content base
URL; unknown services give none. -/
def get_raw_data_url (service name branch : String) : Option String :=
  let s := strToLower service
  if s = "github" then
    some ("https://raw.githubusercontent.com/" ++ name ++ "/" ++ branch)
  else if s = "gitee" then
    some ("https://gitee.com/" ++ name ++ "/raw/" ++ branch)
  else
    none

/-- Recoverable failure kinds of load_from_source: a transport error
(the question-mark operator on send or text) or an unknown source
mode (the final fallthrough Err). -/
inductive FetchErr where
  | transport
  | unknownMode
deriving DecidableEq

/-- Result of one load_from_source call: a body, a returned error, or
a panic (unwrap or expect failure inside the function). -/
inductive FetchR where
  | ok (body : String)
  | err (e : FetchErr)
  | panicked
deriving DecidableEq

/-- Composite of source.get(key).unwrap().as_str().unwrap() on the
data table of the config (none models either panic). -/
def sourceTableStr (data : Toml) (key : String) : Option String :=
  (Toml.as_table data).bind (fun t => (List.lookup key t).bind Toml.as_str)

/-- URL that load_from_source requests, per source mode
(src/utils/data.rs lines 28-59).  none covers every panic point of
the two known modes (bad payload shape, missing field, unknown
service) and the unknown-mode case. -/
def fetch_target (config : Config) (sub_path : String) : Option String :=
  let mode := strToLower config.data_source.mode
  if mode = "independent-repository" then
    match sourceTableStr config.data_source.data ("service"),
          sourceTableStr config.data_source.data ("name"),
          sourceTableStr config.data_source.data ("branch") with
    | some service, some name, some branch =>
      match get_raw_data_url service name branch with
      | some base => some (base ++ sub_path)
      | none => none
    | _, _, _ => none
  else if mode = "sub-path" then
    match Toml.as_str config.data_source.data with
    | some sub_folder =>
      match get_raw_data_url config.repository.service config.repository.name
              config.repository.branch with
      | some base => some (base ++ "/" ++ sub_folder ++ "/" ++ sub_path)
      | none => none
    | none => none
  else
    none

/-- Embedding of load_from_source (src/utils/data.rs lines 24-63).
The HTTP transport is the oracle parameter: none is a transport
failure of send or text.  In the two known modes a failing unwrap
or expect is a panic; an unknown mode is the returned error
Unknown load mode. -/
def load_from_source (http : String → Option String) (config : Config)
    (sub_path : String) : FetchR :=
  let mode := strToLower config.data_source.mode
  if mode = "independent-repository" ∨ mode = "sub-path" then
    match fetch_target config sub_path with
    | none => FetchR.panicked
    | some url =>
      match http url with
      | some body => FetchR.ok body
      | none => FetchR.err FetchErr.transport
  else
    FetchR.err FetchErr.unknownMode

/-- Model of a JSON value, restricted to the shapes the listing code
reads: objects (assoc lists), strings, numbers, booleans, null and
arrays. -/
inductive Json where
  | str (s : String)
  | num (n : Int)
  | jbool (b : Bool)
  | null
  | obj (fields : List (String × Json))
  | arr (xs : List Json)

/-- Mirror of serde_json Value get on an object (first match). -/
def jget (v : Json) (key : String) : Option Json :=
  match v with
  | Json.obj fields => List.lookup key fields
  | _ => none

/-- Mirror of serde_json Value as_str. -/
def Json.asStr : Json → Option String
  | Json.str s => some s
  | _ => none

/-- Type field of a listing entry, as read on data.rs line 106:
entry.get(type).unwrap().as_str().unwrap(); none models the panic. -/
def typeOfEntry (e : Json) : Option String :=
  (jget e ("type")).bind Json.asStr

/-- Name field of a listing entry, as read on data.rs line 107. -/
def nameOfEntry (e : Json) : Option String :=
  (jget e ("name")).bind Json.asStr

/-- Loop body of load_content_list (data.rs lines 105-110): keep the
name of every entry whose type is the string file; a missing or
non-string type field, or a missing or non-string name field on a
file entry, is a panic (none). -/
def extractFileNames : List Json → Option (List String)
  | [] => some []
  | e :: rest =>
    match typeOfEntry e with
    | none => none
    | some ty =>
      if ty = "file" then
        match nameOfEntry e with
        | none => none
        | some nm =>
          match extractFileNames rest with
          | none => none
          | some r => some (nm :: r)
      else
        extractFileNames rest

/-- URL that load_content_list requests (data.rs lines 71-98).  Both
modes target the GitHub contents API; the configured service is never
consulted here.  none covers the panics: a bad payload shape or a
missing field in the known modes, and the explicit Not Found panic of
the unknown-mode arm. -/
def content_list_target (config : Config) (sub_path : String) : Option String :=
  let mode := strToLower config.data_source.mode
  if mode = "independent-repository" then
    match sourceTableStr config.data_source.data ("name"),
          sourceTableStr config.data_source.data ("branch") with
    | some name, some branch =>
      some ("https://api.github.com/repos/" ++ name ++ "/contents/" ++
            sub_path ++ "?ref=" ++ branch)
    | _, _ => none
  else if mode = "sub-path" then
    match Toml.as_str config.data_source.data with
    | some sub_folder =>
      some ("https://api.github.com/repos/" ++ config.repository.name ++
            "/contents/" ++ sub_folder ++ "/" ++ sub_path ++ "?ref=" ++
            config.repository.branch)
    | none => none
  else
    none

/-- Embedding of load_content_list (data.rs lines 65-115).  The
listing transport oracle returns the response decoded as a JSON
array; none covers both a failed send and a body that does not decode
as an array (both leave the result empty in the source).  A panic
while building the target, or while reading an entry, is the overall
none. -/
def load_content_list (hj : String → Option (List Json)) (config : Config)
    (sub_path : String) : Option (List String) :=
  match content_list_target config sub_path with
  | none => none
  | some target =>
    match hj target with
    | none => some []
    | some list => extractFileNames list

/-- Insertion into the pages map (HashMap insert: last write wins,
keys unique; ordering of the model list is not significant). -/
def hm_insert (m : List (String × String)) (k v : String) :
    List (String × String) :=
  if (List.lookup k m).isSome then
    m.map (fun p => if p.1 = k then (k, v) else p)
  else
    m ++ [(k, v)]

/-- Loop of load_pages (data.rs lines 120-126): fetch each listed
name under /pages/ and insert the successful bodies; a returned fetch
error is skipped, a fetch panic aborts the whole loader. -/
def load_pages_go (http : String → Option String) (config : Config) :
    List String → List (String × String) → Option (List (String × String))
  | [], acc => some acc
  | n :: rest, acc =>
    match load_from_source http config ("/pages/" ++ n) with
    | FetchR.panicked => none
    | FetchR.ok content => load_pages_go http config rest (hm_insert acc n content)
    | FetchR.err _ => load_pages_go http config rest acc

/-- Embedding of load_pages (data.rs lines 117-128). -/
def load_pages (http : String → Option String)
    (hj : String → Option (List Json)) (config : Config) :
    Option (List (String × String)) :=
  match load_content_list hj config ("pages") with
  | none => none
  | some contents => load_pages_go http config contents []

/-- Listed names whose fetch succeeds, with their bodies: the pages
the loader keeps. -/
def successPairs (http : String → Option String) (config : Config)
    (names : List String) : List (String × String) :=
  names.filterMap (fun n =>
    match load_from_source http config ("/pages/" ++ n) with
    | FetchR.ok c => some (n, c)
    | _ => none)

/-- Fetch outcomes the page loader keeps. -/
def isOkFetch : FetchR → Bool
  | FetchR.ok _ => true
  | _ => false

/-- Mirror of the Rust str split with a one-character pattern, on
character lists: split never yields an empty list, and splitting the
empty input yields one empty piece. -/
def splitChar (sep : Char) : List Char → List (List Char)
  | [] => [[]]
  | c :: rest =>
    if c = sep then
      [] :: splitChar sep rest
    else
      match splitChar sep rest with
      | [] => [[c]]
      | h :: t => (c :: h) :: t

/-- Suffix extraction of the template resolver
(src/pages/template.rs line 20): name.split(dot).last().unwrap().
The split of any string is non-empty, so the unwrap never panics. -/
def page_suffix (name : String) : String :=
  String.mk ((splitChar '.' name.data).getLastD [])

/-- Base class string of the style builder, also the default class of
the centered-markdown renderer (template.rs lines 83 and 204). -/
def defaultProse : String := "prose prose-sm sm:prose-base dark:prose-invert"

/-- Catalog of recognized style slots, in declaration order
(template.rs lines 174-201). -/
def AVAILABLE_STYLE_SETTINGS : List String :=
  ["headings", "lead", "h1", "h2", "h3", "h4", "p", "a", "blockquote",
   "figure", "figcaption", "strong", "em", "code", "pre", "ol", "ul",
   "li", "table", "thead", "tr", "th", "td", "img", "video", "hr"]

/-- Contribution of one catalog slot to the prose class string
(the loop body of template.rs lines 205-214): on a string value,
split it on spaces; the first branch fires whenever the piece list is
non-empty, which is always, and uses only the first piece; the second
branch (join of the pieces plus a trailing space) is unreachable.
Non-string or absent slots contribute nothing. -/
def slot_contribution (config : TomlTable) (i : String) : String :=
  match List.lookup i config with
  | some (Toml.str v) =>
    let list := (splitChar ' ' v.data).map String.mk
    if list.length ≥ 1 then
      " prose-" ++ i ++ ":" ++ list.headD ""
    else
      String.intercalate (" prose-" ++ i ++ ":") list ++ " "
  | _ => ""

/-- Embedding of generate_prose_class (template.rs lines 203-216):
fold the slot catalog in declared order over the base class. -/
def generate_prose_class (config : TomlTable) : String :=
  AVAILABLE_STYLE_SETTINGS.foldl (fun res i => res ++ slot_contribution config i)
    defaultProse

/-- One renderable card (template.rs lines 115-121). -/
structure CardInfo where
  title : String
  url : String
  content : String
  footnote : String

/-- Terminal rendering outcome handed to the UI layer: the resolved
variant together with its computed payload.  Markup emission itself
is outside the core. -/
inductive RenderOutcome where
  | centerMarkdown (html cls : String) (hide_navbar hide_footer : Bool)
  | cards (groups : List (String × List CardInfo))
  | parseFailed (title msg : String)
  | notFound

/-- Class computation of the centered-markdown renderer (template.rs
lines 80-84): a style sub-table goes through the style builder, any
other shape falls back to the default class. -/
def styleClassOf (config : TomlTable) : String :=
  match List.lookup ("style") config with
  | some (Toml.table t) => generate_prose_class t
  | _ => defaultProse

/-- Boolean flag read of the centered-markdown renderer (template.rs
lines 86-96): a boolean value is taken, everything else is false. -/
def boolFlag (config : TomlTable) (key : String) : Bool :=
  match List.lookup key config with
  | some (Toml.bool b) => b
  | _ => false

/-- Embedding of the CenterMarkdown renderer (template.rs lines
72-113).  The markdown collaborator is the oracle md.  Modelled from
the spec: parse_markdown lives in the missing utils/markdown module
and is consumed as an opaque total markdown-to-html function. -/
def CenterMarkdown (md : String → String) (content : String)
    (config : TomlTable) : RenderOutcome :=
  RenderOutcome.centerMarkdown (md content) (styleClassOf config)
    (boolFlag config ("hide-navbar")) (boolFlag config ("hide-footer"))

/-- Embedding of the JsonCardList renderer (template.rs lines
123-131).  The deserializer collaborator (serde_json) is the oracle
dec: an error value is surfaced as the parse-failed outcome carrying
the error display verbatim, a parsed mapping is rendered as card
groups in iteration order. -/
def JsonCardList (dec : String → Except String (List (String × List CardInfo)))
    (content : String) : RenderOutcome :=
  match dec content with
  | Except.error e => RenderOutcome.parseFailed ("JSON Parse failed") e
  | Except.ok data => RenderOutcome.cards data

/-- Embedding of DynamicTemplate (template.rs lines 19-70).  An
absent template config defaults to the one-entry table using = empty
string; a present non-table value panics on the as_table unwrap
(none), before any dispatch.  The selector value is read but every
value of it maps to the single implemented variant of each content
type (the match arms center and cards also catch the wildcard), and
any other suffix yields the not-found outcome. -/
def DynamicTemplate (md : String → String)
    (dec : String → Except String (List (String × List CardInfo)))
    (name content : String) (template : Option Toml) : Option RenderOutcome :=
  let suffix := page_suffix name
  let t := template.getD (Toml.table [("using", Toml.str "")])
  match Toml.as_table t with
  | none => none
  | some tbl =>
    let u :=
      match List.lookup ("using") tbl with
      | none => ""
      | some v => (Toml.as_str v).getD ""
    some
      (if suffix = "md" then
        let _ := if u = "" then "center" else u
        CenterMarkdown md content tbl
      else if suffix = "json" then
        let _ := if u = "" then "cards" else u
        JsonCardList dec content
      else
        RenderOutcome.notFound)

/-- Naive substring test, used to state containment facts about the
generated class strings. -/
def strContains (s pat : String) : Bool :=
  (List.range (s.data.length + 1)).any (fun i => pat.data.isPrefixOf (s.data.drop i))

/-- Concatenation of a list of strings, for decomposing the style
builder fold. -/
def strConcat : List String → String
  | [] => ""
  | s :: rest => s ++ strConcat rest

lemma splitChar_ne_nil (sep : Char) (l : List Char) : splitChar sep l ≠ [] := by
  cases l with
  | nil => simp [splitChar]
  | cons c rest =>
    simp only [splitChar]
    by_cases h : c = sep
    · simp [h]
    · simp only [if_neg h]
      rcases hs : splitChar sep rest with _ | ⟨a, b⟩ <;> simp

lemma splitChar_of_not_mem (sep : Char) (l : List Char) (h : sep ∉ l) :
    splitChar sep l = [l] := by
  induction l with
  | nil => rfl
  | cons c rest ih =>
    have hc : c ≠ sep := fun hcs => h (hcs ▸ List.mem_cons_self c rest)
    have hr : sep ∉ rest := fun hm => h (List.mem_cons_of_mem c hm)
    simp only [splitChar, if_neg hc, ih hr]

lemma getLastD_irrel {α : Type} (l : List α) (d d2 : α) (h : l ≠ []) :
    l.getLastD d = l.getLastD d2 := by
  induction l generalizing d d2 with
  | nil => exact absurd rfl h
  | cons a rest ih =>
    cases rest with
    | nil => rfl
    | cons b r2 =>
      simp only [List.getLastD_cons]

lemma splitChar_length_ge2 (sep : Char) (l : List Char) (h : sep ∈ l) :
    2 ≤ (splitChar sep l).length := by
  induction l with
  | nil => cases h
  | cons c rest ih =>
    by_cases hc : c = sep
    · have h1 : splitChar sep rest ≠ [] := splitChar_ne_nil sep rest
      have h2 : 1 ≤ (splitChar sep rest).length :=
        Nat.one_le_iff_ne_zero.mpr (fun h0 => h1 (List.length_eq_zero.mp h0))
      simp only [splitChar, if_pos hc, List.length_cons]
      omega
    · have hm : sep ∈ rest := by
        rcases List.mem_cons.mp h with h' | h'
        · exact absurd h'.symm hc
        · exact h'
      have h2 := ih hm
      simp only [splitChar, if_neg hc]
      rcases hs : splitChar sep rest with _ | ⟨a, b⟩
      · exact absurd hs (splitChar_ne_nil sep rest)
      · rw [hs] at h2
        simpa using h2

lemma splitChar_getLastD_append (sep : Char) (a b : List Char) :
    (splitChar sep (a ++ sep :: b)).getLastD [] =
      (splitChar sep b).getLastD [] := by
  induction a with
  | nil =>
    have h1 : splitChar sep ([] ++ sep :: b) = [] :: splitChar sep b := by
      simp [splitChar]
    rw [h1, List.getLastD_cons]
  | cons c a2 ih =>
    by_cases hc : c = sep
    · have h1 : splitChar sep ((c :: a2) ++ sep :: b) =
          [] :: splitChar sep (a2 ++ sep :: b) := by
        rw [List.cons_append]
        simp [splitChar, hc]
      rw [h1, List.getLastD_cons]
      exact ih
    · have hmem : sep ∈ a2 ++ sep :: b := by simp
      rcases hs : splitChar sep (a2 ++ sep :: b) with _ | ⟨h1, t⟩
      · exact absurd hs (splitChar_ne_nil sep _)
      · have hlen := splitChar_length_ge2 sep (a2 ++ sep :: b) hmem
        rw [hs] at hlen
        have ht : t ≠ [] := by
          intro h0
          rw [h0] at hlen
          simp at hlen
        have h2 : splitChar sep ((c :: a2) ++ sep :: b) = (c :: h1) :: t := by
          rw [List.cons_append]
          simp only [splitChar, if_neg hc, hs]
        rw [h2, List.getLastD_cons]
        rw [hs, List.getLastD_cons] at ih
        rw [getLastD_irrel t (c :: h1) h1 ht]
        exact ih

lemma splitChar_headD (sep : Char) (l : List Char) :
    (splitChar sep l).headD [] = l.takeWhile (fun c => c != sep) := by
  induction l with
  | nil => rfl
  | cons c rest ih =>
    by_cases hc : c = sep
    · simp [splitChar, if_pos hc, List.takeWhile, hc]
    · have hbne : (c != sep) = true := bne_iff_ne.mpr hc
      rcases hs : splitChar sep rest with _ | ⟨h, t⟩
      · exact absurd hs (splitChar_ne_nil sep rest)
      · rw [hs, List.headD_cons] at ih
        have h2 : splitChar sep (c :: rest) = (c :: h) :: t := by
          simp only [splitChar, if_neg hc, hs]
        rw [h2, List.headD_cons, List.takeWhile_cons, hbne]
        simp only [if_true]
        exact congrArg (c :: ·) ih

lemma strConcat_append (l1 l2 : List String) :
    strConcat (l1 ++ l2) = strConcat l1 ++ strConcat l2 := by
  induction l1 with
  | nil => simp [strConcat]
  | cons s rest ih => simp [strConcat, ih, String.append_assoc]

lemma foldl_contribution (config : TomlTable) (l : List String) (acc : String) :
    l.foldl (fun res i => res ++ slot_contribution config i) acc =
      acc ++ strConcat (l.map (slot_contribution config)) := by
  induction l generalizing acc with
  | nil => simp [strConcat, String.append_empty]
  | cons i rest ih =>
    simp only [List.foldl_cons, List.map_cons, strConcat]
    rw [ih, String.append_assoc]

lemma hm_insert_of_not_mem (m : List (String × String)) (k v : String)
    (h : List.lookup k m = none) : hm_insert m k v = m ++ [(k, v)] := by
  simp [hm_insert, h]

lemma lookup_append_singleton_none (m : List (String × String))
    (k v n : String) (h1 : List.lookup n m = none) (h2 : n ≠ k) :
    List.lookup n (m ++ [(k, v)]) = none := by
  induction m with
  | nil =>
    simp [List.lookup, beq_eq_false_iff_ne.mpr h2]
  | cons p rest ih =>
    rw [List.cons_append]
    simp only [List.lookup] at h1 ⊢
    rcases hb : (n == p.1) with _ | _
    · rw [hb] at h1
      exact ih h1
    · rw [hb] at h1
      cases h1

lemma load_pages_go_eq (http : String → Option String) (config : Config) :
    ∀ (names : List String) (acc : List (String × String)),
      names.Nodup →
      (∀ n ∈ names, List.lookup n acc = none) →
      (∀ n ∈ names, load_from_source http config ("/pages/" ++ n) ≠ FetchR.panicked) →
      load_pages_go http config names acc =
        some (acc ++ successPairs http config names) := by
  intro names
  induction names with
  | nil =>
    intro acc _ _ _
    simp [load_pages_go, successPairs]
  | cons n rest ih =>
    intro acc hnd hdisj hnp
    have hnd2 := (List.nodup_cons.mp hnd).2
    have hnotin := (List.nodup_cons.mp hnd).1
    rcases hfr : load_from_source http config ("/pages/" ++ n) with body | e | _
    · have hins : hm_insert acc n body = acc ++ [(n, body)] :=
        hm_insert_of_not_mem acc n body (hdisj n (List.mem_cons_self n rest))
      have hdisj2 : ∀ m ∈ rest, List.lookup m (acc ++ [(n, body)]) = none := by
        intro m hm
        exact lookup_append_singleton_none acc n body m
          (hdisj m (List.mem_cons_of_mem n hm))
          (fun he => hnotin (he ▸ hm))
      have hrec := ih (acc ++ [(n, body)]) hnd2 hdisj2
        (fun m hm => hnp m (List.mem_cons_of_mem n hm))
      simp only [load_pages_go, hfr, hins, hrec, successPairs, List.filterMap_cons]
      simp [successPairs, List.append_assoc]
    · have hrec := ih acc hnd2
        (fun m hm => hdisj m (List.mem_cons_of_mem n hm))
        (fun m hm => hnp m (List.mem_cons_of_mem n hm))
      simp only [load_pages_go, hfr, hrec, successPairs, List.filterMap_cons]
    · exact absurd hfr (hnp n (List.mem_cons_self n rest))

lemma length_filterMap_eq_countP {α β : Type} (f : α → Option β) (l : List α) :
    (l.filterMap f).length = l.countP (fun a => (f a).isSome) := by
  induction l with
  | nil => rfl
  | cons a rest ih =>
    rw [List.filterMap_cons, List.countP_cons]
    rcases hf : f a with _ | b <;> simp [hf, ih]

lemma countP_ext {α : Type} (p q : α → Bool) (l : List α) (h : ∀ a, p a = q a) :
    l.countP p = l.countP q := by
  induction l with
  | nil => rfl
  | cons a rest ih => rw [List.countP_cons, List.countP_cons, h a, ih]

lemma successPairs_length (http : String → Option String) (config : Config)
    (names : List String) :
    (successPairs http config names).length =
      names.countP (fun n => isOkFetch (load_from_source http config ("/pages/" ++ n))) := by
  rw [successPairs, length_filterMap_eq_countP]
  apply countP_ext
  intro n
  rcases hfr : load_from_source http config ("/pages/" ++ n) with body | e | _ <;>
    simp [hfr, isOkFetch]

/-- Well-formedness of one listing entry: the loop of
load_content_list reads it without panicking. -/
def entryWellFormed (e : Json) : Bool :=
  match typeOfEntry e with
  | none => false
  | some ty => if ty = "file" then (nameOfEntry e).isSome else true

/-- Names of the file-typed entries, in listing order: what the loop
accumulates when no entry panics. -/
def fileNamesOf (entries : List Json) : List String :=
  entries.filterMap (fun e =>
    if typeOfEntry e = some "file" then nameOfEntry e else none)

lemma extractFileNames_eq (entries : List Json)
    (hwf : entries.all entryWellFormed = true) :
    extractFileNames entries = some (fileNamesOf entries) := by
  induction entries with
  | nil => rfl
  | cons e rest ih =>
    rw [List.all_cons, Bool.and_eq_true] at hwf
    have hwe := hwf.1
    have hrec := ih hwf.2
    rcases hty : typeOfEntry e with _ | ty
    · exact absurd hwe (by simp [entryWellFormed, hty])
    · have hwe2 : (if ty = "file" then (nameOfEntry e).isSome else true) = true := by
        unfold entryWellFormed at hwe
        rw [hty] at hwe
        exact hwe
      by_cases hf : ty = "file"
      · subst hf
        rw [if_pos rfl] at hwe2
        rcases hnm : nameOfEntry e with _ | nm
        · rw [hnm] at hwe2
          cases hwe2
        · simp [extractFileNames, fileNamesOf, hty, hnm, hrec]
      · simp [extractFileNames, fileNamesOf, hty, hf, hrec]

lemma generate_eq_strConcat (config : TomlTable) :
    generate_prose_class config =
      defaultProse ++
        strConcat (AVAILABLE_STYLE_SETTINGS.map (slot_contribution config)) := by
  simpa [generate_prose_class] using
    foldl_contribution config AVAILABLE_STYLE_SETTINGS defaultProse

/-! Concrete fixtures for witnesses and counterexamples. -/

/-- Listing entry of file type with the given name. -/
def entryFile (nm : String) : Json :=
  Json.obj [("type", Json.str "file"), ("name", Json.str nm)]

/-- Listing entry of directory type with the given name. -/
def entryDir (nm : String) : Json :=
  Json.obj [("type", Json.str "dir"), ("name", Json.str nm)]

/-- Independent-repository config on the github service. -/
def cfgIndep : Config :=
  { data_source := { mode := "independent-repository",
                     data := Toml.table [("service", Toml.str "github"),
                                         ("name", Toml.str "o/r"),
                                         ("branch", Toml.str "m")] },
    repository := { service := "github", name := "o/r", branch := "m" } }

/-- Independent-repository config whose service is outside the closed
set, with well-formed name and branch fields. -/
def cfgBadService : Config :=
  { data_source := { mode := "independent-repository",
                     data := Toml.table [("service", Toml.str "gitlab"),
                                         ("name", Toml.str "o/r"),
                                         ("branch", Toml.str "m")] },
    repository := { service := "github", name := "o/r", branch := "m" } }

/-- Config whose source mode is outside the closed set. -/
def cfgBadMode : Config :=
  { data_source := { mode := "local", data := Toml.str "x" },
    repository := { service := "github", name := "o/r", branch := "m" } }

/-- Sub-path config whose repository lives on the gitee service. -/
def cfgSubGitee : Config :=
  { data_source := { mode := "sub-path", data := Toml.str "docs" },
    repository := { service := "gitee", name := "o/r", branch := "b" } }

/-- Independent-repository config matching the literal example of the
spec: service github, name acme/site, branch main. -/
def cfgAcme : Config :=
  { data_source := { mode := "independent-repository",
                     data := Toml.table [("service", Toml.str "github"),
                                         ("name", Toml.str "acme/site"),
                                         ("branch", Toml.str "main")] },
    repository := { service := "github", name := "acme/site", branch := "main" } }

/-- Listing oracle: the pages listing of cfgIndep (and of
cfgBadService, which shares name and branch) holds three files. -/
def hjPages : String → Option (List Json) := fun t =>
  if t = "https://api.github.com/repos/o/r/contents/pages?ref=m" then
    some [entryFile ("a.md"), entryFile ("b.md"), entryFile ("c.md")]
  else
    none

/-- Transport oracle: fetches of a.md and c.md succeed, the fetch of
b.md fails with a transport error. -/
def httpPages : String → Option String := fun u =>
  if u = "https://raw.githubusercontent.com/o/r/m/pages/a.md" then some ("A")
  else if u = "https://raw.githubusercontent.com/o/r/m/pages/c.md" then some ("C")
  else none

/-- Transport oracle on which every request succeeds. -/
def httpAny : String → Option String := fun _ => some ("body")

/-! Claim theorems. -/

/-- C1 counterexample: with an unknown service (gitlab) in
independent-repository mode the listing succeeds, and the very first
per-file fetch panics on the expect of the service lookup, so
load_pages terminates abnormally (none) instead of returning a
mapping that merely omits the failed pages.  The claim that every
UnknownService or MalformedSourceConfig fetch failure is recovered
locally is therefore false. -/
theorem C1_counterexample :
    load_content_list hjPages cfgBadService ("pages") =
        some ["a.md", "b.md", "c.md"] ∧
      load_pages httpAny hjPages cfgBadService = none :=
  ⟨rfl, rfl⟩

/-- C1 (amended): load_pages recovers locally only from per-file
fetch failures that load_from_source returns as errors (transport
failures, and an unknown source mode): whenever the listing succeeds
and no per-file fetch panics, load_pages returns normally and its
result is exactly the listed files whose fetch succeeded, each with
its body; its size is the count of successful fetches (2 of 3 listed
files in the witness).  Fetch panics (unknown service, malformed
source table) abort load_pages instead of being recovered. -/
theorem C1_load_pages_recovery (http : String → Option String)
    (hj : String → Option (List Json)) (config : Config) (names : List String)
    (hlist : load_content_list hj config ("pages") = some names)
    (hnd : names.Nodup)
    (hnp : ∀ n ∈ names,
      load_from_source http config ("/pages/" ++ n) ≠ FetchR.panicked) :
    load_pages http hj config = some (successPairs http config names) ∧
      (successPairs http config names).length =
        names.countP
          (fun n => isOkFetch (load_from_source http config ("/pages/" ++ n))) := by
  constructor
  · have hgo := load_pages_go_eq http config names [] hnd
      (fun n _ => rfl) hnp
    simp only [load_pages, hlist, hgo, List.nil_append]
  · exact successPairs_length http config names

/-- Witness for C1: the concrete three-file listing with one
transport failure gives a two-entry mapping. -/
theorem C1_load_pages_recovery_witness :
    load_pages httpPages hjPages cfgIndep =
        some (successPairs httpPages cfgIndep ["a.md", "b.md", "c.md"]) ∧
      (successPairs httpPages cfgIndep ["a.md", "b.md", "c.md"]).length = 2 := by
  have h := C1_load_pages_recovery httpPages hjPages cfgIndep
    ["a.md", "b.md", "c.md"] rfl (by decide) (by decide)
  exact ⟨h.1, by rw [h.2]; decide⟩

/-- C2 counterexample: with a source mode outside the closed set,
load_content_list hits the explicit Not Found panic while building
the listing URL and terminates abnormally (none) even though the
transport oracle would answer every request; it does not return the
empty sequence the claim promises for any failure. -/
theorem C2_counterexample :
    load_content_list (fun _ => some []) cfgBadMode ("pages") = none ∧
      load_content_list (fun _ => some []) cfgBadMode ("pages") ≠ some [] := by
  exact ⟨rfl, by decide⟩

/-- C2 (amended): the listing degrades to an empty sequence only for
failures of the listing request itself: if the target URL is built
(known mode, well-formed payload) and the transport or the decode of
the response as a JSON array fails, the result is the empty sequence;
but when the target cannot be built (unknown source mode, or a
malformed payload in a known mode) load_content_list panics instead
of returning empty, as it also does on a listing entry without a
string type field (or a file entry without a string name field). -/
theorem C2_list_failure_degrade (hj : String → Option (List Json))
    (config : Config) (sub_path : String) :
    (∀ t, content_list_target config sub_path = some t → hj t = none →
      load_content_list hj config sub_path = some []) ∧
      (content_list_target config sub_path = none →
        load_content_list hj config sub_path = none) ∧
      (∀ t entries, content_list_target config sub_path = some t →
        hj t = some entries →
        load_content_list hj config sub_path = extractFileNames entries) := by
  refine ⟨?_, ?_, ?_⟩
  · intro t ht hn
    simp only [load_content_list, ht, hn]
  · intro ht
    simp only [load_content_list, ht]
  · intro t entries ht he
    simp only [load_content_list, ht, he]

/-- Witness for C2: a transport failure of the listing call on a
well-formed config yields the empty listing, while a decoded listing
whose entry lacks a type field panics the loop (none). -/
theorem C2_list_failure_degrade_witness :
    load_content_list (fun _ => none) cfgIndep ("pages") = some [] ∧
      load_content_list (fun _ => some [Json.obj []]) cfgIndep ("pages") =
        none := by
  constructor
  · exact (C2_list_failure_degrade (fun _ => none) cfgIndep ("pages")).1
      ("https://api.github.com/repos/o/r/contents/pages?ref=m") rfl rfl
  · exact (C2_list_failure_degrade (fun _ => some [Json.obj []]) cfgIndep
      ("pages")).2.2 ("https://api.github.com/repos/o/r/contents/pages?ref=m")
      [Json.obj []] rfl rfl

/-- C3 counterexample: the listing URL never consults the configured
service.  For a sub-path config whose repository lives on the gitee
service (whose raw host resolves to gitee.com), the listing targets
the GitHub contents API, so the directory-listing host is not the
host selected by the configured service as the claim states. -/
theorem C3_counterexample :
    cfgSubGitee.repository.service = "gitee" ∧
      get_raw_data_url ("gitee") ("o/r") ("b") =
        some ("https://gitee.com/o/r/raw/b") ∧
      content_list_target cfgSubGitee ("pages") =
        some ("https://api.github.com/repos/o/r/contents/docs/pages?ref=b") ∧
      strContains ("https://api.github.com/repos/o/r/contents/docs/pages?ref=b")
        ("gitee") = false :=
  ⟨rfl, rfl, rfl, by decide⟩

/-- C3 (amended): load_content_list queries the GitHub contents API
regardless of the configured service, with parameters name and branch
taken from the data-source table in independent-repository mode, and
from the config repository plus the sub-folder string in sub-path
mode; the result is exactly the name values of the listed entries
whose type equals file, in listing order, provided every entry is
well formed. -/
theorem C3_listing_host_and_filter (hj : String → Option (List Json))
    (config : Config) (sub_path : String) :
    (∀ nm br,
      strToLower config.data_source.mode = "independent-repository" →
      sourceTableStr config.data_source.data ("name") = some nm →
      sourceTableStr config.data_source.data ("branch") = some br →
      content_list_target config sub_path =
        some ("https://api.github.com/repos/" ++ nm ++ "/contents/" ++
          sub_path ++ "?ref=" ++ br)) ∧
      (∀ sf,
        strToLower config.data_source.mode = "sub-path" →
        Toml.as_str config.data_source.data = some sf →
        content_list_target config sub_path =
          some ("https://api.github.com/repos/" ++ config.repository.name ++
            "/contents/" ++ sf ++ "/" ++ sub_path ++ "?ref=" ++
            config.repository.branch)) ∧
      (∀ t entries,
        content_list_target config sub_path = some t →
        hj t = some entries →
        entries.all entryWellFormed = true →
        load_content_list hj config sub_path = some (fileNamesOf entries)) := by
  refine ⟨?_, ?_, ?_⟩
  · intro nm br hmode hn hb
    simp [content_list_target, hmode, hn, hb]
  · intro sf hmode hs
    simp [content_list_target, hmode, hs]
  · intro t entries ht he hwf
    simp only [load_content_list, ht, he, extractFileNames_eq entries hwf]

/-- Witness for C3: the concrete independent-repository config lists
three entries, one of directory type, and the result keeps the two
file names in order. -/
theorem C3_listing_host_and_filter_witness :
    content_list_target cfgIndep ("pages") =
        some ("https://api.github.com/repos/" ++ "o/r" ++ "/contents/" ++
          "pages" ++ "?ref=" ++ "m") ∧
      load_content_list
          (fun _ => some [entryFile ("a.md"), entryDir ("sub"), entryFile ("b.md")])
          cfgIndep ("pages") =
        some (fileNamesOf [entryFile ("a.md"), entryDir ("sub"), entryFile ("b.md")]) ∧
      fileNamesOf [entryFile ("a.md"), entryDir ("sub"), entryFile ("b.md")] =
        ["a.md", "b.md"] := by
  have h := C3_listing_host_and_filter
    (fun _ => some [entryFile ("a.md"), entryDir ("sub"), entryFile ("b.md")])
    cfgIndep ("pages")
  refine ⟨h.1 ("o/r") ("m") rfl rfl rfl, ?_, rfl⟩
  exact h.2.2 ("https://api.github.com/repos/o/r/contents/pages?ref=m")
    [entryFile ("a.md"), entryDir ("sub"), entryFile ("b.md")] rfl rfl (by decide)

lemma styleClassOf_default (config : TomlTable)
    (h : ∀ t, List.lookup ("style") config ≠ some (Toml.table t)) :
    styleClassOf config = defaultProse := by
  unfold styleClassOf
  cases hl : List.lookup ("style") config with
  | none => rfl
  | some v =>
    cases v with
    | str s => rfl
    | bool b => rfl
    | int n => rfl
    | table t => exact absurd hl (h t)

/-- C4 counterexample: the resolver splits on the dot and takes the
last piece, and the split of a dotless name yields the whole name, so
the dotless name md has suffix md and selects the markdown renderer,
not the not-found outcome the claim predicts for dotless names. -/
theorem C4_counterexample :
    page_suffix ("md") = "md" ∧
      DynamicTemplate (fun s => s) (fun _ => Except.error ("e")) ("md") ("hello")
          none =
        some (RenderOutcome.centerMarkdown ("hello") defaultProse false false) :=
  ⟨rfl, rfl⟩

/-- C4 (amended): the suffix is the last dot-separated piece of the
page name: the substring after the last dot when the name contains
one, and the whole name when it contains none (so a dotless name
whose text is md selects the markdown renderer). -/
theorem C4_suffix_extraction (name : String) :
    (('.' ∉ name.data) → page_suffix name = name) ∧
      (∀ a b : List Char, name.data = a ++ '.' :: b → '.' ∉ b →
        page_suffix name = String.mk b) := by
  constructor
  · intro h
    unfold page_suffix
    rw [splitChar_of_not_mem '.' name.data h]
    rfl
  · intro a b hab hnb
    unfold page_suffix
    rw [hab, splitChar_getLastD_append, splitChar_of_not_mem '.' b hnb]
    rfl

/-- Witness for C4: a dotless name keeps its whole text as suffix,
and a dotted name keeps the piece after the last dot. -/
theorem C4_suffix_extraction_witness :
    page_suffix ("notes") = "notes" ∧ page_suffix ("a.b") = String.mk ['b'] := by
  refine ⟨(C4_suffix_extraction ("notes")).1 (by decide), ?_⟩
  exact (C4_suffix_extraction ("a.b")).2 ['a'] ['b'] rfl (by decide)

/-- C5 counterexample: an empty-string slot value does not append
nothing; splitting the empty string yields one empty piece, so the
builder appends the fragment prose-a: (with an empty token) and the
output does contain that fragment, contrary to the claim. -/
theorem C5_counterexample :
    generate_prose_class [("a", Toml.str "")] = defaultProse ++ " prose-a:" ∧
      strContains (generate_prose_class [("a", Toml.str "")]) (" prose-a:") =
        true :=
  ⟨rfl, by decide⟩

/-- C5 (amended): for a catalog slot present with the empty string as
its value, the builder appends exactly the fragment prose-slot: with
an empty token (the empty-piece-list branch of the source is dead
code, because splitting any string yields at least one piece), so the
output does contain that fragment for the slot. -/
theorem C5_empty_value_slot (config : TomlTable) (s : String)
    (hs : s ∈ AVAILABLE_STYLE_SETTINGS)
    (hv : List.lookup s config = some (Toml.str "")) :
    slot_contribution config s = " prose-" ++ s ++ ":" ∧
      ∃ p q, generate_prose_class config = p ++ (" prose-" ++ s ++ ":") ++ q := by
  have hcontrib : slot_contribution config s = " prose-" ++ s ++ ":" := by
    have h0 : slot_contribution config s = (" prose-" ++ s ++ ":") ++ "" := by
      simp only [slot_contribution, hv]
      rfl
    rw [h0, String.append_empty]
  refine ⟨hcontrib, ?_⟩
  obtain ⟨l1, l2, hcat⟩ := List.append_of_mem hs
  refine ⟨defaultProse ++ strConcat (l1.map (slot_contribution config)),
          strConcat (l2.map (slot_contribution config)), ?_⟩
  rw [generate_eq_strConcat, hcat, List.map_append, List.map_cons,
    strConcat_append]
  simp only [strConcat, hcontrib]
  simp only [String.append_assoc]

/-- Witness for C5: the singleton table mapping slot a to the empty
string produces the base class followed by the empty-token fragment
for a. -/
theorem C5_empty_value_slot_witness :
    slot_contribution [("a", Toml.str "")] ("a") = " prose-a:" ∧
      ∃ p q, generate_prose_class [("a", Toml.str "")] =
        p ++ (" prose-" ++ "a" ++ ":") ++ q := by
  have h := C5_empty_value_slot [("a", Toml.str "")] ("a") (by decide) rfl
  exact ⟨h.1, h.2⟩

/-- C6: suffix md resolves to the centered-markdown variant, which
uses the default class string when no style sub-table is present (in
particular for an absent config, defaulted to the empty selector);
suffix json resolves to the card-list variant; any selector value
maps to the single implemented variant of its content type; and any
other suffix yields the not-found outcome, returned normally. -/
theorem C6_template_defaults (md : String → String)
    (dec : String → Except String (List (String × List CardInfo)))
    (name content : String) (tbl : TomlTable) :
    (page_suffix name = "md" →
      (List.lookup ("using") tbl = none ∨
        List.lookup ("using") tbl = some (Toml.str "")) →
      (∀ t, List.lookup ("style") tbl ≠ some (Toml.table t)) →
      DynamicTemplate md dec name content (some (Toml.table tbl)) =
        some (RenderOutcome.centerMarkdown (md content) defaultProse
          (boolFlag tbl ("hide-navbar")) (boolFlag tbl ("hide-footer")))) ∧
      (page_suffix name = "md" →
        DynamicTemplate md dec name content none =
          some (RenderOutcome.centerMarkdown (md content) defaultProse
            false false)) ∧
      (page_suffix name = "json" →
        DynamicTemplate md dec name content (some (Toml.table tbl)) =
          some (JsonCardList dec content)) ∧
      (∀ u, page_suffix name = "md" →
        List.lookup ("using") tbl = some (Toml.str u) →
        DynamicTemplate md dec name content (some (Toml.table tbl)) =
          some (CenterMarkdown md content tbl)) ∧
      (page_suffix name ≠ "md" → page_suffix name ≠ "json" →
        DynamicTemplate md dec name content (some (Toml.table tbl)) =
          some RenderOutcome.notFound) := by
  refine ⟨?_, ?_, ?_, ?_, ?_⟩
  · intro hsuf _ hstyle
    simp [DynamicTemplate, Toml.as_table, hsuf, CenterMarkdown,
      styleClassOf_default tbl hstyle]
  · intro hsuf
    simp [DynamicTemplate, Toml.as_table, hsuf]
    rfl
  · intro hsuf
    simp [DynamicTemplate, Toml.as_table, hsuf]
  · intro u hsuf _
    simp [DynamicTemplate, Toml.as_table, hsuf]
  · intro h1 h2
    simp [DynamicTemplate, Toml.as_table, h1, h2]

/-- Witness for C6: concrete pages a.md, a.json and a.txt with the
defaulted selector table resolve to the three claimed outcomes. -/
theorem C6_template_defaults_witness :
    DynamicTemplate (fun s => s) (fun _ => Except.error ("e")) ("a.md") ("x")
        (some (Toml.table [("using", Toml.str "")])) =
      some (RenderOutcome.centerMarkdown ("x") defaultProse false false) ∧
      DynamicTemplate (fun s => s) (fun _ => Except.error ("e")) ("a.json") ("x")
          (some (Toml.table [("using", Toml.str "")])) =
        some (JsonCardList (fun _ => Except.error ("e")) ("x")) ∧
      DynamicTemplate (fun s => s) (fun _ => Except.error ("e")) ("a.txt") ("x")
          (some (Toml.table [("using", Toml.str "")])) =
        some RenderOutcome.notFound := by
  have h1 := C6_template_defaults (fun s => s) (fun _ => Except.error ("e"))
    ("a.md") ("x") [("using", Toml.str "")]
  have h2 := C6_template_defaults (fun s => s) (fun _ => Except.error ("e"))
    ("a.json") ("x") [("using", Toml.str "")]
  have h3 := C6_template_defaults (fun s => s) (fun _ => Except.error ("e"))
    ("a.txt") ("x") [("using", Toml.str "")]
  refine ⟨?_, h2.2.2.1 rfl, h3.2.2.2.2 (by decide) (by decide)⟩
  exact h1.1 rfl (Or.inr rfl) (fun t ht => Option.noConfusion ht)

/-- C7: load_from_source requests, in sub-path mode, exactly the URL
base slash sub-folder slash sub-path, and in independent-repository
mode exactly base followed by the sub-path with no separator; the
body of a successful response is returned, a transport failure is the
returned error.  The literal example of the spec is checked on the
acme/site config. -/
theorem C7_fetch_url (http : String → Option String) (config : Config)
    (sp : String) :
    (∀ sf base,
      strToLower config.data_source.mode = "sub-path" →
      Toml.as_str config.data_source.data = some sf →
      get_raw_data_url config.repository.service config.repository.name
          config.repository.branch = some base →
      load_from_source http config sp =
        (match http (base ++ "/" ++ sf ++ "/" ++ sp) with
         | some body => FetchR.ok body
         | none => FetchR.err FetchErr.transport)) ∧
      (∀ sv nm br base,
        strToLower config.data_source.mode = "independent-repository" →
        sourceTableStr config.data_source.data ("service") = some sv →
        sourceTableStr config.data_source.data ("name") = some nm →
        sourceTableStr config.data_source.data ("branch") = some br →
        get_raw_data_url sv nm br = some base →
        load_from_source http config sp =
          (match http (base ++ sp) with
           | some body => FetchR.ok body
           | none => FetchR.err FetchErr.transport)) ∧
      (load_from_source http cfgAcme ("/pages/a.md") =
        (match http ("https://raw.githubusercontent.com/acme/site/main/pages/a.md") with
         | some body => FetchR.ok body
         | none => FetchR.err FetchErr.transport)) := by
  refine ⟨?_, ?_, ?_⟩
  · intro sf base hmode hsf hbase
    simp [load_from_source, fetch_target, hmode, hsf, hbase]
  · intro sv nm br base hmode hsv hnm hbr hbase
    simp [load_from_source, fetch_target, hmode, hsv, hnm, hbr, hbase]
  · have h : fetch_target cfgAcme ("/pages/a.md") =
        some ("https://raw.githubusercontent.com/acme/site/main/pages/a.md") := rfl
    simp [load_from_source, fetch_target, cfgAcme, strToLower]
    rfl

/-- Witness for C7: a transport oracle keyed to the literal example
URL answers the acme/site fetch with its body. -/
theorem C7_fetch_url_witness :
    load_from_source
        (fun u =>
          if u = "https://raw.githubusercontent.com/acme/site/main/pages/a.md"
          then some ("BODY") else none)
        cfgAcme ("/pages/a.md") = FetchR.ok ("BODY") := by
  have h := (C7_fetch_url
    (fun u =>
      if u = "https://raw.githubusercontent.com/acme/site/main/pages/a.md"
      then some ("BODY") else none)
    cfgAcme ("/pages/a.md")).2.1 ("github") ("acme/site") ("main")
    ("https://raw.githubusercontent.com/acme/site/main") rfl rfl rfl rfl rfl
  exact h

/-- C9: a deserialization failure of the card-list content is
surfaced as the parse-failed outcome carrying the collaborator error
message verbatim (so the message is non-empty whenever the
collaborator message is), while well-formed content renders the
parsed groups and their cards unchanged. -/
theorem C9_card_parse (dec : String → Except String (List (String × List CardInfo)))
    (content : String) :
    (∀ e, dec content = Except.error e →
       JsonCardList dec content = RenderOutcome.parseFailed ("JSON Parse failed") e) ∧
      (∀ gs, dec content = Except.ok gs →
        JsonCardList dec content = RenderOutcome.cards gs) := by
  constructor
  · intro e he
    simp [JsonCardList, he]
  · intro gs hgs
    simp [JsonCardList, hgs]

/-- Witness for C9: a decoder that fails on the string bad with a
non-empty message and parses the documented example otherwise gives
the parse-failed and round-tripped outcomes. -/
theorem C9_card_parse_witness :
    JsonCardList
        (fun s =>
          if s = "bad" then Except.error ("expected value at line 1")
          else Except.ok [("Docs", [{ title := "A", url := "/a",
                                      content := "c", footnote := "f" }])])
        ("bad") =
      RenderOutcome.parseFailed ("JSON Parse failed") ("expected value at line 1") ∧
      JsonCardList
          (fun s =>
            if s = "bad" then Except.error ("expected value at line 1")
            else Except.ok [("Docs", [{ title := "A", url := "/a",
                                        content := "c", footnote := "f" }])])
          ("good") =
        RenderOutcome.cards [("Docs", [{ title := "A", url := "/a",
                                         content := "c", footnote := "f" }])] := by
  constructor
  · exact (C9_card_parse
      (fun s =>
        if s = "bad" then Except.error ("expected value at line 1")
        else Except.ok [("Docs", [{ title := "A", url := "/a",
                                    content := "c", footnote := "f" }])])
      ("bad")).1 ("expected value at line 1") rfl
  · exact (C9_card_parse
      (fun s =>
        if s = "bad" then Except.error ("expected value at line 1")
        else Except.ok [("Docs", [{ title := "A", url := "/a",
                                    content := "c", footnote := "f" }])])
      ("good")).2 [("Docs", [{ title := "A", url := "/a",
                               content := "c", footnote := "f" }])] rfl

/-- C10: template resolution proceeds for an absent config (defaulted
to the empty selector) and for any table config, but a supplied
non-table value fails the table conversion and panics (none) before
any dispatch, whatever the page name and content. -/
theorem C10_table_precondition (md : String → String)
    (dec : String → Except String (List (String × List CardInfo)))
    (name content : String) :
    (DynamicTemplate md dec name content none).isSome = true ∧
      (∀ tbl : TomlTable,
        (DynamicTemplate md dec name content (some (Toml.table tbl))).isSome =
          true) ∧
      (∀ v : Toml, Toml.as_table v = none →
        DynamicTemplate md dec name content (some v) = none) := by
  refine ⟨?_, ?_, ?_⟩
  · simp [DynamicTemplate, Toml.as_table]
  · intro tbl
    simp [DynamicTemplate, Toml.as_table]
  · intro v hv
    simp [DynamicTemplate, hv]

/-- Witness for C10: a string-valued template config panics the
resolver while the defaulted and table configs succeed. -/
theorem C10_table_precondition_witness :
    (DynamicTemplate (fun s => s) (fun _ => Except.error ("e")) ("a.md") ("x")
        none).isSome = true ∧
      DynamicTemplate (fun s => s) (fun _ => Except.error ("e")) ("a.md") ("x")
          (some (Toml.str "bad")) = none := by
  have h := C10_table_precondition (fun s => s) (fun _ => Except.error ("e"))
    ("a.md") ("x")
  exact ⟨h.1, h.2.2 (Toml.str "bad") rfl⟩

/-- C8: the builder visits the 26-slot catalog in declared order (the
output is the base class followed by the per-slot contributions in
catalog order); a slot present with a string value contributes the
fragment prose-slot: followed by the first space-separated token only
(characters up to the first space), slots absent or with a non-string
value contribute nothing, and on the documented example the output
contains prose-h1:text-xl and does not contain extra. -/
theorem C8_first_token_only (config : TomlTable) (s v : String)
    (hs : s ∈ AVAILABLE_STYLE_SETTINGS)
    (hv : List.lookup s config = some (Toml.str v)) (hne : v ≠ "") :
    slot_contribution config s =
        " prose-" ++ s ++ ":" ++
          String.mk (v.data.takeWhile (fun c => c != ' ')) ∧
      (∀ c2 s2, (∀ w, List.lookup s2 c2 ≠ some (Toml.str w)) →
        slot_contribution c2 s2 = "") ∧
      generate_prose_class config =
        defaultProse ++
          strConcat (AVAILABLE_STYLE_SETTINGS.map (slot_contribution config)) ∧
      strContains (generate_prose_class [("h1", Toml.str "text-xl extra")])
        (" prose-h1:text-xl") = true ∧
      strContains (generate_prose_class [("h1", Toml.str "text-xl extra")])
        ("extra") = false := by
  refine ⟨?_, ?_, generate_eq_strConcat config, by decide, by decide⟩
  · rcases hsp : splitChar ' ' v.data with _ | ⟨h, t⟩
    · exact absurd hsp (splitChar_ne_nil ' ' v.data)
    · have hh : h = v.data.takeWhile (fun c => c != ' ') := by
        have h2 := splitChar_headD ' ' v.data
        rw [hsp, List.headD_cons] at h2
        exact h2
      simp only [slot_contribution, hv, hsp, List.map_cons, List.headD_cons]
      rw [if_pos (by simp)]
      rw [hh]
  · intro c2 s2 hno
    unfold slot_contribution
    cases hl : List.lookup s2 c2 with
    | none => rfl
    | some v2 =>
      cases v2 with
      | str w => exact absurd hl (hno w)
      | bool b => rfl
      | int n => rfl
      | table t => rfl

/-- Witness for C8: the documented h1 example keeps only the first
token text-xl and discards extra. -/
theorem C8_first_token_only_witness :
    slot_contribution [("h1", Toml.str "text-xl extra")] ("h1") =
        " prose-h1:text-xl" ∧
      strContains (generate_prose_class [("h1", Toml.str "text-xl extra")])
        ("extra") = false := by
  have h := C8_first_token_only [("h1", Toml.str "text-xl extra")] ("h1")
    ("text-xl extra") (by decide) rfl (by decide)
  exact ⟨h.1, h.2.2.2.2⟩

end Karaty
